import Mathlib

/-!
Verification of the ZPL interpreter and rasterizer of the `zpl-imager`
repository.  The definitions below are a shallow embedding of the
TypeScript sources (`src/ZplElementDrawer.ts`, `src/VirtualPrinter`
in `font.ts`, `src/drawers/*.ts`, `index.ts`): JavaScript strings are
`List Char`, JavaScript numbers are `Int` where the source only ever
holds integers and `ℚ` where fractional values occur (the float
constants 0.6 and 0.65 are modelled as the exact rationals 3/5 and
13/20; every claim is evaluated at inputs where float rounding and
exact rational arithmetic agree), `NaN`/`undefined` are modelled with
`Option` at the places the source can produce them, and the mutable
`VirtualPrinter` becomes explicit state passing.
-/

namespace ZplImager

/-- Vertical whitespace stripped by the tokenizer: the regex
`[\n\v\f\r]` of `splitZplCommands`. -/
def isVerticalWs (c : Char) : Bool :=
  c = '\n' ∨ c = Char.ofNat 11 ∨ c = Char.ofNat 12 ∨ c = '\r'

/-- ASCII whitespace as recognised by JavaScript `String.prototype.trim`
and the regex class `\s` (Unicode space classes are not modelled; no
claim exercises them). -/
def isJsWs (c : Char) : Bool :=
  c = ' ' ∨ c = '\t' ∨ c = '\n' ∨ c = Char.ofNat 11 ∨ c = Char.ofNat 12 ∨ c = '\r'

/-- JavaScript `String.prototype.trim` on a character list. -/
def jsTrim (l : List Char) : List Char :=
  ((l.dropWhile isJsWs).reverse.dropWhile isJsWs).reverse

/-- The cleaning step of `splitZplCommands`: remove vertical whitespace. -/
def stripVertical (l : List Char) : List Char :=
  l.filter (fun c => ¬ isVerticalWs c)

/-- Scanning loop of `splitZplCommands`: every `^` or `~` terminates the
buffer in progress and starts a new token beginning with the introducer. -/
def splitZplAux : List Char → List Char → List (List Char)
  | [], buffer => if buffer = [] then [] else [buffer]
  | c :: rest, buffer =>
      if c = '^' ∨ c = '~' then
        if buffer = [] then splitZplAux rest [c]
        else buffer :: splitZplAux rest [c]
      else splitZplAux rest (buffer ++ [c])

/-- `splitZplCommands` from `ZplElementDrawer.ts`. -/
def splitZplCommands (zpl : String) : List (List Char) :=
  splitZplAux (stripVertical zpl.data) []

/-- JavaScript `str.split(",")` semantics: empty segments are kept and
`"".split(",") = [""]`. -/
def splitComma : List Char → List (List Char)
  | [] => [[]]
  | c :: rest =>
      if c = ',' then [] :: splitComma rest
      else
        match splitComma rest with
        | seg :: segs => (c :: seg) :: segs
        | [] => [[c]]

/-- JavaScript `str.split(/\\&/)`: split on the two-character sequence
backslash-ampersand, keeping empty segments. -/
def splitBackslashAmp : List Char → List (List Char)
  | [] => [[]]
  | [c] => [[c]]
  | c :: d :: rest =>
      if c = '\\' ∧ d = '&' then [] :: splitBackslashAmp rest
      else
        match splitBackslashAmp (d :: rest) with
        | seg :: segs => (c :: seg) :: segs
        | [] => [[c]]

/-- JavaScript `str.split(/\s+/)`: maximal whitespace runs are
separators; a leading or trailing run contributes an empty segment. -/
def jsSplitWs : List Char → List (List Char)
  | [] => [[]]
  | c :: rest =>
      if isJsWs c then
        match rest with
        | [] => [[], []]
        | d :: _ => if isJsWs d then jsSplitWs rest else [] :: jsSplitWs rest
      else
        match jsSplitWs rest with
        | seg :: segs => (c :: seg) :: segs
        | [] => [[c]]

/-- Value of a list of decimal digits. -/
def digitsVal (l : List Char) : Nat :=
  l.foldl (fun acc c => acc * 10 + (c.toNat - '0'.toNat)) 0

/-- JavaScript `parseInt(s, 10)`: skip leading whitespace, optional
sign, then the longest prefix of decimal digits; `none` models `NaN`
(no digits found). -/
def parseIntJS (l : List Char) : Option Int :=
  let l := l.dropWhile isJsWs
  let (sign, l) : Int × List Char :=
    match l with
    | '-' :: rest => (-1, rest)
    | '+' :: rest => (1, rest)
    | _ => (1, l)
  let digits := l.takeWhile Char.isDigit
  if digits = [] then none else some (sign * (digitsVal digits : Int))

/-- `parseInt(s, 10) || 0`: both `NaN` and `0` collapse to `0`. -/
def parseIntOr0 (l : List Char) : Int :=
  (parseIntJS l).getD 0

/-- JavaScript `parseFloat(s)` restricted to plain decimal literals
(optional sign, integer digits, optional fraction); exponents are not
modelled — no claim exercises them.  `none` models `NaN`. -/
def parseFloatJS (l : List Char) : Option ℚ :=
  let l := l.dropWhile isJsWs
  let (sign, l) : ℚ × List Char :=
    match l with
    | '-' :: rest => (-1, rest)
    | '+' :: rest => (1, rest)
    | _ => (1, l)
  let intDigits := l.takeWhile Char.isDigit
  let rest := l.drop intDigits.length
  let fracDigits :=
    match rest with
    | '.' :: r => r.takeWhile Char.isDigit
    | _ => []
  if intDigits = [] ∧ fracDigits = [] then none
  else
    some (sign * ((digitsVal intDigits : ℚ) +
      (digitsVal fracDigits : ℚ) / ((10 : ℚ) ^ fracDigits.length)))

/-- Value of a hexadecimal digit, if any. -/
def hexVal (c : Char) : Option Nat :=
  if '0' ≤ c ∧ c ≤ '9' then some (c.toNat - '0'.toNat)
  else if 'a' ≤ c ∧ c ≤ 'f' then some (c.toNat - 'a'.toNat + 10)
  else if 'A' ≤ c ∧ c ≤ 'F' then some (c.toNat - 'A'.toNat + 10)
  else none

/-- `Buffer.from(s, "hex")` in modern Node: decode hex pairs from the
left, truncating at the first character pair that is not valid hex
(so a leading invalid character yields an empty buffer; no exception
is thrown). -/
def hexDecodeJS : List Char → List Nat
  | c :: d :: rest =>
      match hexVal c, hexVal d with
      | some hi, some lo => (hi * 16 + lo) :: hexDecodeJS rest
      | _, _ => []
  | _ => []

/-- The regex test `/[Yy]/.test(s)`: the string contains `Y` or `y`. -/
def containsYy (l : List Char) : Bool :=
  l.any (fun c => c = 'Y' ∨ c = 'y')

/-- Uppercase a whole string, as `toUpperCase` (ASCII range). -/
def strUpper (l : List Char) : List Char :=
  l.map Char.toUpper

/-- Floor of a rational, as JavaScript `Math.floor`. -/
def ratFloor (q : ℚ) : Int :=
  Int.fdiv q.num (q.den : Int)

/-- Ceiling of a rational, as JavaScript `Math.ceil`. -/
def ratCeil (q : ℚ) : Int :=
  -(Int.fdiv (-q.num) (q.den : Int))

/-- Origin semantics of `^FO` (top-left) versus `^FT` (baseline). -/
inductive OriginType where
  | topLeft
  | baseline
deriving DecidableEq

/-- The armed `nextPosition` of the virtual printer
(`VirtualPrinter.setNextPosition`). -/
structure Position where
  x : Int
  y : Int
  bottom : Bool
  originType : OriginType
deriving DecidableEq

/-- A stored graphic (`VirtualPrinter.graphics` values): `raw` comes
from `~DG`, `png` from a `~DY` whose hex payload decoded, and
`rawString` from the `~DY` fallback branch that stores the raw string. -/
inductive Graphic where
  | raw (totalBytes bytesPerRow : Int) (dataString : List Char)
  | png (data : List Nat)
  | rawString (dataString : List Char)
deriving DecidableEq

/-- Field-block formatting stored by `^FB`
(`VirtualPrinter.setFieldBlock`). -/
structure FieldBlock where
  width : Int
  lines : Int
  lineSpacing : Int
  align : Char
  indent : Int
deriving DecidableEq

/-- Code-specific options collected by the `^B…` commands
(`spec.options` in the analyzer). -/
structure BcOptions where
  scale : Option Int := none
  ecclevel : Option (List Char) := none
  securitylevel : Option Int := none
  columns : Option Int := none
  rows : Option Int := none
  rowheight : Option Int := none
  truncated : Option Bool := none
deriving DecidableEq

/-- A pending barcode specification awaiting `^FD`
(`VirtualPrinter.setPendingBarcode`). -/
structure BarcodeSpec where
  codeType : List Char
  fieldOrient : Char
  height : Int
  moduleWidth : Int
  ratio : ℚ
  options : BcOptions
  printInterpretation : Bool
  printAbove : Bool
deriving DecidableEq

/-- The mutable evaluator state of `VirtualPrinter` (font.ts).  The
font name is `Option Char` because JavaScript can store `undefined`
there (the `^A` command with a one-character designator list). -/
structure VirtualPrinter where
  nextPosition : Option Position
  fontName : Option Char
  fontHeight : Int
  fontWidth : Int
  fontOrient : Char
  barcodeModuleWidth : Int
  barcodeRatio : ℚ
  barcodeHeight : Int
  pendingBarcode : Option BarcodeSpec
  labelHomeX : Int
  labelHomeY : Int
  reverseNext : Bool
  fieldBlock : Option FieldBlock
  fieldOrientation : Option Char
  graphics : List (List Char × Graphic)
deriving DecidableEq

/-- `VirtualPrinter.reset()`: the state installed by the constructor
and by every `^XA`. -/
def resetPrinter : VirtualPrinter where
  nextPosition := none
  fontName := some '0'
  fontHeight := 10
  fontWidth := 0
  fontOrient := 'N'
  barcodeModuleWidth := 2
  barcodeRatio := 3
  barcodeHeight := 50
  pendingBarcode := none
  labelHomeX := 0
  labelHomeY := 0
  reverseNext := false
  fieldBlock := none
  fieldOrientation := none
  graphics := []

/-- `VirtualPrinter.setFont`.  `height` is `none` when the JavaScript
argument was `undefined` or `NaN` (both skip the assignment); `width`
is `none` only for `NaN` — an absent argument already became the
default `0` at the call site. -/
def VirtualPrinter.setFont (p : VirtualPrinter) (name : Option Char)
    (orient : Char) (height : Option Int) (width : Option Int) :
    VirtualPrinter :=
  { p with
    fontName := name
    fontOrient := match p.fieldOrientation with
      | some fo => fo
      | none => orient
    fontHeight := match height with
      | some h => if 0 < h then h else p.fontHeight
      | none => p.fontHeight
    fontWidth := match width with
      | some w => if 0 ≤ w then w else p.fontWidth
      | none => p.fontWidth }

/-- The font snapshot returned by `VirtualPrinter.getFont`. -/
structure FontInfo where
  name : Option Char
  orient : Char
  height : Int
  width : Int
deriving DecidableEq

/-- `VirtualPrinter.getFont`. -/
def VirtualPrinter.getFont (p : VirtualPrinter) : FontInfo where
  name := p.fontName
  orient := p.fieldOrientation.getD p.fontOrient
  height := p.fontHeight
  width := p.fontWidth

/-- `VirtualPrinter.setBarcodeDefaults`: each parameter is applied only
when it is a number greater than zero (`none` models `undefined`/`NaN`). -/
def VirtualPrinter.setBarcodeDefaults (p : VirtualPrinter)
    (moduleWidth : Option Int) (ratio : Option ℚ) (height : Option Int) :
    VirtualPrinter :=
  { p with
    barcodeModuleWidth := match moduleWidth with
      | some m => if 0 < m then m else p.barcodeModuleWidth
      | none => p.barcodeModuleWidth
    barcodeRatio := match ratio with
      | some r => if 0 < r then r else p.barcodeRatio
      | none => p.barcodeRatio
    barcodeHeight := match height with
      | some h => if 0 < h then h else p.barcodeHeight
      | none => p.barcodeHeight }

/-- `VirtualPrinter.setFieldBlock`: every numeric field passes through
`|| 0` (`none` models `NaN`) and the alignment is uppercased. -/
def VirtualPrinter.setFieldBlock (p : VirtualPrinter)
    (width lines lineSpacing : Option Int) (align : Char) (indent : Option Int) :
    VirtualPrinter :=
  let fb : FieldBlock :=
    { width := width.getD 0
      lines := lines.getD 0
      lineSpacing := lineSpacing.getD 0
      align := align.toUpper
      indent := indent.getD 0 }
  { p with fieldBlock := some fb }

/-- `VirtualPrinter.setFieldOrientation`: only `N`, `R`, `I`, `B` are
accepted. -/
def VirtualPrinter.setFieldOrientation (p : VirtualPrinter) (o : Char) :
    VirtualPrinter :=
  if o = 'N' ∨ o = 'R' ∨ o = 'I' ∨ o = 'B' then
    { p with fieldOrientation := some o }
  else p

/-- `VirtualPrinter.saveGraphic`: a falsy (empty) key is ignored;
saving shadows any earlier entry of the same name. -/
def VirtualPrinter.saveGraphic (p : VirtualPrinter) (key : List Char)
    (g : Graphic) : VirtualPrinter :=
  if key = [] then p else { p with graphics := (key, g) :: p.graphics }

/-- `VirtualPrinter.getGraphic`. -/
def VirtualPrinter.getGraphic (p : VirtualPrinter) (key : List Char) :
    Option Graphic :=
  p.graphics.lookup key

/-- The drawable elements produced by the analyzer.  `text` and
`barcode` elements carry no `reverse` field, exactly as the source
never attaches one to them; `height` and `thickness` of the shape
elements are `Option Int` because the source can store `NaN` there
(`none` models `NaN`). -/
inductive Element where
  | text (x y : Int) (txt : List Char) (height width : Int)
      (fontName : Option Char) (orient : Char) (originType : OriginType)
      (blockWidth : Option Int) (blockAlign : Option Char)
  | barcode (x y : Int) (codeType : List Char) (txt : List Char)
      (height moduleWidth : Int) (ratio : ℚ) (options : BcOptions)
      (orient : Char) (printInterpretation printAbove : Bool)
  | box (x y : Int) (width : Int) (height thickness : Option Int)
      (color : List Char) (reverse : Bool)
  | circle (x y : Int) (diameter : Int) (thickness : Option Int)
      (color : List Char) (reverse : Bool)
  | diagonal (x y : Int) (width : Int) (height thickness : Option Int)
      (color : List Char) (reverse : Bool)
  | image (x y : Int) (scaleX scaleY : ℚ) (reverse : Bool) (orient : Char)
      (graphic : Option Graphic)
deriving DecidableEq

/-- The `reverse` field of an element, when the element carries one. -/
def Element.reverseField : Element → Option Bool
  | .box _ _ _ _ _ _ r => some r
  | .circle _ _ _ _ _ r => some r
  | .diagonal _ _ _ _ _ _ r => some r
  | .image _ _ _ _ r _ _ => some r
  | _ => none

/-- The `text` field of an element, where present. -/
def Element.textField : Element → List Char
  | .text _ _ t _ _ _ _ _ _ _ => t
  | .barcode _ _ _ t _ _ _ _ _ _ _ => t
  | _ => []

/-- One finished label. -/
structure Label where
  elements : List Element
deriving DecidableEq

/-- The loop state of `analyze`: the virtual printer, the labels pushed
so far and the element buffer of the current label. -/
structure AnalyzeState where
  printer : VirtualPrinter
  labels : List Label
  current : List Element
deriving DecidableEq

/-- Initial state of `analyze`. -/
def initState : AnalyzeState where
  printer := resetPrinter
  labels := []
  current := []

/-- `pushLabel` of `analyze`: push the buffered elements (possibly
empty) as a label, clear the buffer, the pending barcode and the
armed position — the field block is not touched. -/
def pushLabel (s : AnalyzeState) : AnalyzeState where
  printer := { s.printer with pendingBarcode := none, nextPosition := none }
  labels := s.labels ++ [⟨s.current⟩]
  current := []

/-- Intercalate a comma between segments (`Array.prototype.join(",")`). -/
def joinComma (l : List (List Char)) : List Char :=
  (l.intersperse [',']).flatten

/-- `^FO` / `^FT`: arm the next position, offset by the label home. -/
def cmdFOFT (s : AnalyzeState) (ps : List Char) (ot : OriginType) : AnalyzeState :=
  let parts := splitComma ps
  let x := parseIntOr0 (parts.getD 0 [])
  let y := parseIntOr0 (parts.getD 1 [])
  let bottom : Bool :=
    decide (2 < parts.length) && (strUpper (jsTrim (parts.getD 2 [])) = ['B'])
  let p := s.printer
  let np : Position := ⟨p.labelHomeX + x, p.labelHomeY + y, bottom, ot⟩
  { s with printer := { p with nextPosition := some np } }

/-- `^LH`: set the label home. -/
def cmdLH (s : AnalyzeState) (ps : List Char) : AnalyzeState :=
  let parts := splitComma ps
  let x := parseIntOr0 (parts.getD 0 [])
  let y := parseIntOr0 (parts.getD 1 [])
  { s with printer := { s.printer with labelHomeX := x, labelHomeY := y } }

/-- `^BY`: update the barcode defaults. -/
def cmdBY (s : AnalyzeState) (ps : List Char) : AnalyzeState :=
  let parts := splitComma ps
  let moduleWidth := parseIntJS (parts.getD 0 [])
  let ratio := if 1 < parts.length then parseFloatJS (parts.getD 1 []) else none
  let height := if 2 < parts.length then parseIntJS (parts.getD 2 []) else none
  { s with printer := s.printer.setBarcodeDefaults moduleWidth ratio height }

/-- `^GB`: emit a box element; consumes the reverse flag and the armed
position (falling back to the origin). -/
def cmdGB (s : AnalyzeState) (ps : List Char) : AnalyzeState :=
  let parts := splitComma ps
  let w := parseIntOr0 (parts.getD 0 [])
  let h := if 1 < parts.length then parseIntJS (parts.getD 1 []) else some 0
  let t := if 2 < parts.length then parseIntJS (parts.getD 2 []) else some 1
  let c := if 3 < parts.length then strUpper (jsTrim (parts.getD 3 [])) else ['B']
  let p := s.printer
  let pos := p.nextPosition.getD ⟨0, 0, false, .topLeft⟩
  let el := Element.box pos.x pos.y w h t c p.reverseNext
  { s with current := s.current ++ [el]
           printer := { p with reverseNext := false, nextPosition := none } }

/-- `^FR`: arm the reverse flag. -/
def cmdFR (s : AnalyzeState) : AnalyzeState :=
  { s with printer := { s.printer with reverseNext := true } }

/-- `^CF`: change the default font.  An absent designator keeps the
previous one; an absent or unparsable height is skipped inside
`setFont`; an absent or unparsable width falls back to the `width = 0`
default parameter of `setFont`. -/
def cmdCF (s : AnalyzeState) (ps : List Char) : AnalyzeState :=
  let parts := splitComma ps
  let desig : Option Char :=
    match jsTrim (parts.getD 0 []) with
    | c :: _ => some c
    | [] => none
  let height := if 1 < parts.length then parseIntJS (parts.getD 1 []) else none
  let width0 : Int := (if 2 < parts.length then parseIntJS (parts.getD 2 []) else none).getD 0
  let p := s.printer
  let name := match desig with
    | some c => some c
    | none => p.fontName
  { s with printer := p.setFont name p.fontOrient height (some width0) }

/-- `^FW`: set the default field orientation. -/
def cmdFW (s : AnalyzeState) (ps : List Char) : AnalyzeState :=
  match jsTrim ps with
  | c :: _ => { s with printer := s.printer.setFieldOrientation c.toUpper }
  | [] => s

/-- `^FB`: store a field block. -/
def cmdFB (s : AnalyzeState) (ps : List Char) : AnalyzeState :=
  let parts := splitComma ps
  let width := parseIntJS (parts.getD 0 [])
  let lines := if 1 < parts.length then parseIntJS (parts.getD 1 []) else some 0
  let spacing := if 2 < parts.length then parseIntJS (parts.getD 2 []) else some 0
  let align : Char :=
    if 3 < parts.length then
      match jsTrim (parts.getD 3 []) with
      | c :: _ => c.toUpper
      | [] => 'L'
    else 'L'
  let indent := if 4 < parts.length then parseIntJS (parts.getD 4 []) else some 0
  { s with printer := s.printer.setFieldBlock width lines spacing align indent }

/-- `^IM` and `^XG` (identical bodies in the source): emit an image
element for the recalled graphic; consume reverse flag and position
(falling back to the label home) and clear the field block. -/
def cmdIMXG (s : AnalyzeState) (ps : List Char) : AnalyzeState :=
  let parts := splitComma ps
  let fileSpec := if parts.getD 0 [] = [] then [] else jsTrim (parts.getD 0 [])
  let mx : Option ℚ :=
    if 1 < parts.length ∧ parts.getD 1 [] ≠ [] then parseFloatJS (parts.getD 1 []) else some 1
  let my : Option ℚ :=
    if 2 < parts.length ∧ parts.getD 2 [] ≠ [] then parseFloatJS (parts.getD 2 []) else some 1
  let p := s.printer
  let pos := p.nextPosition.getD ⟨p.labelHomeX, p.labelHomeY, false, .topLeft⟩
  let el := Element.image pos.x pos.y (mx.getD 1) (my.getD 1) p.reverseNext
    (p.fieldOrientation.getD 'N') (p.getGraphic fileSpec)
  { s with current := s.current ++ [el]
           printer := { p with reverseNext := false, nextPosition := none, fieldBlock := none } }

/-- `~DG`: store a raw graphic.  The source locates the first three
commas with `indexOf`; that succeeds exactly when the split yields at
least four segments, and the data part keeps any further commas. -/
def cmdDG (s : AnalyzeState) (ps : List Char) : AnalyzeState :=
  let parts := splitComma ps
  if 4 ≤ parts.length then
    let name := jsTrim (parts.getD 0 [])
    let total := parseIntOr0 (parts.getD 1 [])
    let bytesPerRow := parseIntOr0 (parts.getD 2 [])
    let data := joinComma (parts.drop 3)
    { s with printer := s.printer.saveGraphic name (.raw total bytesPerRow data) }
  else s

/-- `~DY`: store a PNG graphic.  Everything from the sixth
comma-separated field onwards is re-joined and hex-decoded; in modern
Node `Buffer.from(_, "hex")` never throws (it truncates at the first
invalid character), so the `catch` fallback of the source is dead and
the decoded bytes are always stored with type `png`. -/
def cmdDY (s : AnalyzeState) (ps : List Char) : AnalyzeState :=
  let parts := splitComma ps
  if 6 ≤ parts.length then
    let name := jsTrim (parts.getD 0 [])
    let dataHex := joinComma (parts.drop 5)
    let bytes := hexDecodeJS (jsTrim dataHex)
    { s with printer := s.printer.saveGraphic name (.png bytes) }
  else s

/-- `^GC`: emit a circle element. -/
def cmdGC (s : AnalyzeState) (ps : List Char) : AnalyzeState :=
  let parts := splitComma ps
  let d := parseIntOr0 (parts.getD 0 [])
  let t := if 1 < parts.length then parseIntJS (parts.getD 1 []) else some 0
  let c := if 2 < parts.length then strUpper (jsTrim (parts.getD 2 [])) else ['B']
  let p := s.printer
  let pos := p.nextPosition.getD ⟨0, 0, false, .topLeft⟩
  let el := Element.circle pos.x pos.y d t c p.reverseNext
  { s with current := s.current ++ [el]
           printer := { p with reverseNext := false, nextPosition := none } }

/-- `^GD`: emit a diagonal-line element. -/
def cmdGD (s : AnalyzeState) (ps : List Char) : AnalyzeState :=
  let parts := splitComma ps
  let w := parseIntOr0 (parts.getD 0 [])
  let h := if 1 < parts.length then parseIntJS (parts.getD 1 []) else some 0
  let t := if 2 < parts.length then parseIntJS (parts.getD 2 []) else some 1
  let c := if 3 < parts.length then strUpper (jsTrim (parts.getD 3 [])) else ['B']
  let p := s.printer
  let pos := p.nextPosition.getD ⟨0, 0, false, .topLeft⟩
  let el := Element.diagonal pos.x pos.y w h t c p.reverseNext
  { s with current := s.current ++ [el]
           printer := { p with reverseNext := false, nextPosition := none } }

/-- `^FS`: clear the armed position and pending barcode. -/
def cmdFS (s : AnalyzeState) : AnalyzeState :=
  { s with printer := { s.printer with nextPosition := none, pendingBarcode := none } }

/-- Greedy word packing of the field-block wrapper: a word whose
prospective line exceeds `maxChars` starts a new line unless the
current line is empty. -/
def wrapWordsAux (mc : Option Int) : List (List Char) → List Char → List (List Char)
  | [], line => [line]
  | w :: ws, line =>
      let prospective := if line ≠ [] then line ++ ' ' :: w else w
      match mc with
      | some m =>
          if (prospective.length : Int) > m ∧ line ≠ [] then
            line :: wrapWordsAux mc ws w
          else wrapWordsAux mc ws prospective
      | none => wrapWordsAux mc ws prospective

/-- `^FD`: emit a barcode element when a barcode is pending, otherwise
a wrapped block of text elements when a field block is armed,
otherwise a single text element.  The armed position is cleared in
every branch; the reverse flag is not touched. -/
def cmdFD (s : AnalyzeState) (payload : List Char) : AnalyzeState :=
  let p := s.printer
  let pos := p.nextPosition.getD ⟨p.labelHomeX, p.labelHomeY, false, .topLeft⟩
  match p.pendingBarcode with
  | some bc =>
      let el := Element.barcode pos.x pos.y bc.codeType payload
        (if bc.height = 0 then p.barcodeHeight else bc.height)
        (if bc.moduleWidth = 0 then p.barcodeModuleWidth else bc.moduleWidth)
        (if bc.ratio = 0 then p.barcodeRatio else bc.ratio)
        bc.options bc.fieldOrient bc.printInterpretation bc.printAbove
      { s with current := s.current ++ [el]
               printer := { p with pendingBarcode := none, nextPosition := none } }
  | none =>
      let font := p.getFont
      let ot := match p.nextPosition with
        | some np => np.originType
        | none => OriginType.topLeft
      match p.fieldBlock with
      | some block =>
          let rawParts := splitBackslashAmp payload
          let fontHeight := if font.height = 0 then 10 else font.height
          let scaleX : ℚ :=
            if font.name.map Char.toUpper = some '0' then
              if 0 < font.width ∧ 0 < font.height then
                (font.width : ℚ) / (font.height : ℚ)
              else (13 : ℚ) / 20
            else 1
          let charWidth : ℚ := (fontHeight : ℚ) * (3 / 5 : ℚ) * scaleX
          let maxChars : Option Int :=
            if 0 < block.width then
              some (ratFloor ((block.width : ℚ) / (if charWidth = 0 then 1 else charWidth)))
            else none
          let wrapped := rawParts.foldl
            (fun acc raw => acc ++ wrapWordsAux maxChars (jsSplitWs raw) []) []
          let actual : Int := wrapped.length
          let maxLines : Int := if 0 < block.lines then min block.lines actual else actual
          let offsetY : Int :=
            if 0 < block.lines ∧ actual < block.lines then
              let total := actual * (fontHeight + block.lineSpacing) - block.lineSpacing
              let avail := block.lines * (fontHeight + block.lineSpacing) - block.lineSpacing
              Int.fdiv (avail - total) 2
            else 0
          let newEls := (List.range maxLines.toNat).map fun (i : Nat) =>
            Element.text (pos.x + (if i = 0 then 0 else block.indent))
              (pos.y + offsetY + (Int.ofNat i) * (fontHeight + block.lineSpacing))
              (wrapped.getD i []) fontHeight font.width font.name font.orient ot
              (some block.width) (some block.align)
          { s with current := s.current ++ newEls
                   printer := { p with fieldBlock := none, nextPosition := none } }
      | none =>
          let el := Element.text pos.x pos.y payload font.height font.width
            font.name font.orient ot none none
          { s with current := s.current ++ [el]
                   printer := { p with nextPosition := none } }

/-- Shared orientation parsing of the `^B…` and `^A…` commands: drop
leading commas, take an optional leading `N`/`R`/`I`/`B` (case
insensitive) and one following comma. -/
def parseOrientParams (rest : List Char) : Char × List Char :=
  let rest := rest.dropWhile (· = ',')
  match rest with
  | c :: tail =>
      if c.toUpper = 'N' ∨ c.toUpper = 'R' ∨ c.toUpper = 'I' ∨ c.toUpper = 'B' then
        (c.toUpper, match tail with
          | ',' :: t => t
          | t => t)
      else ('N', rest)
  | [] => ('N', [])

/-- The barcode-spec switch of the analyzer default branch: maps the
second designator character to a code type and parses the
code-specific parameters.  Returns `none` for unknown designators. -/
def barcodeSpecFor (p : VirtualPrinter) (second : Char) (orient : Char)
    (params : List (List Char)) : Option BarcodeSpec :=
  let base : BarcodeSpec :=
    { codeType := []
      fieldOrient := orient
      height := p.barcodeHeight
      moduleWidth := p.barcodeModuleWidth
      ratio := p.barcodeRatio
      options := {}
      printInterpretation := false
      printAbove := false }
  let heightAt := fun (i : Nat) =>
    match (if i < params.length then parseIntJS (params.getD i []) else none) with
    | some h => h
    | none => p.barcodeHeight
  let piAt := fun (i : Nat) =>
    if i < params.length then containsYy (params.getD i []) else true
  let paAt := fun (i : Nat) =>
    if i < params.length then containsYy (params.getD i []) else false
  let intAt := fun (i : Nat) =>
    if i < params.length then parseIntJS (params.getD i []) else none
  match second with
  | 'C' => some { base with
      codeType := "code128".data,
      height := heightAt 0,
      printInterpretation := piAt 1,
      printAbove := paAt 2 }
  | 'D' => some { base with
      codeType := "code128".data,
      height := heightAt 0,
      printInterpretation := piAt 1,
      printAbove := paAt 2 }
  | '3' => some { base with
      codeType := "code39".data,
      height := heightAt 1,
      printInterpretation := piAt 2,
      printAbove := paAt 3 }
  | 'E' => some { base with
      codeType := "ean13".data,
      height := heightAt 0,
      printInterpretation := piAt 1,
      printAbove := paAt 2 }
  | '8' => some { base with
      codeType := "ean13".data,
      height := heightAt 0,
      printInterpretation := piAt 1,
      printAbove := paAt 2 }
  | '9' => some { base with
      codeType := "code93".data,
      height := heightAt 0,
      printInterpretation := piAt 1,
      printAbove := paAt 2 }
  | 'A' => some { base with
      codeType := "code93".data,
      height := heightAt 0,
      printInterpretation := piAt 1,
      printAbove := paAt 2 }
  | '2' => some { base with
      codeType := "interleaved2of5".data,
      height := heightAt 0,
      printInterpretation := piAt 1,
      printAbove := paAt 2 }
  | 'Q' =>
      let ecc : Option (List Char) :=
        if 1 < params.length ∧ params.getD 1 [] ≠ [] then
          some (strUpper (jsTrim (params.getD 1 [])))
        else none
      some { base with
        codeType := "qrcode".data,
        options := { scale := intAt 0, ecclevel := ecc } }
  | 'X' => some { base with
      codeType := "datamatrix".data,
      options := { scale := intAt 0 } }
  | '7' =>
      let trunc : Option Bool :=
        if 5 < params.length then some (containsYy (params.getD 5 [])) else none
      some { base with
        codeType := "pdf417".data,
        moduleWidth := (intAt 0).getD p.barcodeModuleWidth,
        options := { securitylevel := intAt 1, columns := intAt 2,
                     rows := intAt 3, rowheight := intAt 4, truncated := trunc } }
  | _ => none

/-- The analyzer default branch: `^B…` arms a pending barcode, `^A…`
sets the font; anything else is ignored. -/
def cmdBarcodeFont (s : AnalyzeState) (pfx cmd : List Char) : AnalyzeState :=
  match pfx with
  | 'B' :: rest2 =>
      match rest2 with
      | [] => s
      | second :: _ =>
          let (orient, restParams) := parseOrientParams (cmd.drop 3)
          let params := if restParams = [] then [] else splitComma restParams
          match barcodeSpecFor s.printer second orient params with
          | some spec => { s with printer := { s.printer with pendingBarcode := some spec } }
          | none => s
  | 'A' :: rest2 =>
      let desig : Option Char := rest2.head?
      let (fo, after2) := parseOrientParams (cmd.drop 3)
      let fparts := if after2 = [] then [] else splitComma after2
      let fheight := if 0 < fparts.length then parseIntJS (fparts.getD 0 []) else none
      let fwidth := if 1 < fparts.length then parseIntJS (fparts.getD 1 []) else some 0
      { s with printer := s.printer.setFont desig fo fheight fwidth }
  | _ => s

/-- Does the trimmed command match `/^\^XA/i`. -/
def isXACmd : List Char → Bool
  | c0 :: c1 :: c2 :: _ => c0 = '^' ∧ c1.toUpper = 'X' ∧ c2.toUpper = 'A'
  | _ => false

/-- Does the trimmed command match `/^\^XZ/i`. -/
def isXZCmd : List Char → Bool
  | c0 :: c1 :: c2 :: _ => c0 = '^' ∧ c1.toUpper = 'X' ∧ c2.toUpper = 'Z'
  | _ => false

/-- Dispatch on the uppercased two-character designator, as the
`switch` of `analyze`. -/
def execPrefixed (s : AnalyzeState) (pfx cmd : List Char) : AnalyzeState :=
  match pfx with
  | ['F', 'O'] => cmdFOFT s (cmd.drop 3) .topLeft
  | ['F', 'T'] => cmdFOFT s (cmd.drop 3) .baseline
  | ['L', 'H'] => cmdLH s (cmd.drop 3)
  | ['B', 'Y'] => cmdBY s (cmd.drop 3)
  | ['G', 'B'] => cmdGB s (cmd.drop 3)
  | ['F', 'R'] => cmdFR s
  | ['C', 'F'] => cmdCF s (cmd.drop 3)
  | ['F', 'W'] => cmdFW s (cmd.drop 3)
  | ['F', 'B'] => cmdFB s (cmd.drop 3)
  | ['I', 'M'] => cmdIMXG s (cmd.drop 3)
  | ['D', 'G'] => cmdDG s (cmd.drop 3)
  | ['D', 'Y'] => cmdDY s (cmd.drop 3)
  | ['X', 'G'] => cmdIMXG s (cmd.drop 3)
  | ['G', 'C'] => cmdGC s (cmd.drop 3)
  | ['G', 'D'] => cmdGD s (cmd.drop 3)
  | ['F', 'D'] => cmdFD s (cmd.drop 3)
  | ['F', 'S'] => cmdFS s
  | _ => cmdBarcodeFont s pfx cmd

/-- Process one trimmed command: skip short commands, handle `^XA` and
`^XZ`, otherwise dispatch on the designator. -/
def execTrimmed (s : AnalyzeState) (cmd : List Char) : AnalyzeState :=
  if cmd.length < 2 then s
  else if isXACmd cmd then { s with printer := resetPrinter, current := [] }
  else if isXZCmd cmd then pushLabel s
  else execPrefixed s (((cmd.drop 1).take 2).map Char.toUpper) cmd

/-- Process one raw token of the command loop of `analyze`
(the token is trimmed first). -/
def execCommand (s : AnalyzeState) (raw : List Char) : AnalyzeState :=
  execTrimmed s (jsTrim raw)

/-- `analyze` from `ZplElementDrawer.ts`: tokenize, run the command
loop, and push a trailing label when the element buffer is non-empty. -/
def analyze (zpl : String) : List Label :=
  let st := (splitZplCommands zpl).foldl execCommand initState
  if st.current = [] then st.labels else (pushLabel st).labels

/-- Run a list of pre-split commands from the initial state; used to
observe intermediate printer states. -/
def runCommands (cmds : List String) : AnalyzeState :=
  cmds.foldl (fun s c => execCommand s c.data) initState

/-- Rounding as JavaScript `Math.round` (half away from zero is not
modelled; `Math.round` is floor of x + 1/2, which is what the
generator relies on). -/
def ratRound (q : ℚ) : Int :=
  ratFloor (q + 1 / 2)

/-- The `CODE39_PATTERNS` table of `BarcodeDrawer.ts`; the fallback for
unknown characters is the pattern of `-`. -/
def code39Pattern (c : Char) : List Char :=
  (match c with
   | '0' => "nnnwwnwnn"
   | '1' => "wnnwnnnnw"
   | '2' => "nnwwnnnnw"
   | '3' => "wnwwnnnnn"
   | '4' => "nnnwwnnnw"
   | '5' => "wnnwwnnnn"
   | '6' => "nnwwwnnnn"
   | '7' => "nnnwnnwnw"
   | '8' => "wnnwnnwnn"
   | '9' => "nnwwnnwnn"
   | 'A' => "wnnnnwnnw"
   | 'B' => "nnwnnwnnw"
   | 'C' => "wnwnnwnnn"
   | 'D' => "nnnnwwnnw"
   | 'E' => "wnnnwwnnn"
   | 'F' => "nnwnwwnnn"
   | 'G' => "nnnnnwwnw"
   | 'H' => "wnnnnwwnn"
   | 'I' => "nnwnnwwnn"
   | 'J' => "nnnnwwwnn"
   | 'K' => "wnnnnnnww"
   | 'L' => "nnwnnnnww"
   | 'M' => "wnwnnnnwn"
   | 'N' => "nnnnwnnww"
   | 'O' => "wnnnwnnwn"
   | 'P' => "nnwnwnnwn"
   | 'Q' => "nnnnnnwww"
   | 'R' => "wnnnnnwwn"
   | 'S' => "nnwnnnwwn"
   | 'T' => "nnnnwnwwn"
   | 'U' => "wwnnnnnnw"
   | 'V' => "nwwnnnnnw"
   | 'W' => "wwwnnnnnn"
   | 'X' => "nwnnwnnnw"
   | 'Y' => "wwnnwnnnn"
   | 'Z' => "nwwnwnnnn"
   | '-' => "nwnnnnwnw"
   | '.' => "wwnnnnwnn"
   | ' ' => "nwwnnnwnn"
   | '$' => "nwnwnwnnn"
   | '/' => "nwnwnnnwn"
   | '+' => "nwnnnwnwn"
   | '%' => "nnnwnwnwn"
   | '*' => "nwnnwnwnn"
   | _ => "nwnnnnwnw").data

/-- Number of modules of one pattern: `w` counts as the ratio, `n` as 1. -/
def patModules (pat : List Char) (ratio : ℚ) : ℚ :=
  pat.foldl (fun acc ch => acc + (if ch = 'w' then ratio else 1)) 0

/-- Uppercased data wrapped in `*` start and stop characters. -/
def code39Encoded (text : List Char) : List Char :=
  '*' :: strUpper text ++ ['*']

/-- Total width in modules of a Code 39 barcode: ten quiet modules on
each side, the modules of every encoded character, and one
single-module gap between consecutive characters. -/
def code39TotalModules (text : List Char) (ratio : ℚ) : ℚ :=
  let encoded := code39Encoded text
  10 + (encoded.map (fun ch => patModules (code39Pattern ch) ratio)).sum
    + ((encoded.length : ℚ) - 1) + 10

/-- The running x of the bar-drawing walk of `generateCode39Image`:
advance by the pattern modules of each character and one narrow gap
between characters. -/
def code39WalkAux (narrow ratio : ℚ) : List Char → ℚ → ℚ
  | [], x => x
  | [c], x => x + patModules (code39Pattern c) ratio * narrow
  | c :: d :: rest, x =>
      code39WalkAux narrow ratio (d :: rest)
        (x + patModules (code39Pattern c) ratio * narrow + narrow)

/-- Dimensions and quiet-zone geometry of the bitmap produced by the
native Code 39 generator `generateCode39Image`. -/
structure Code39Render where
  imgWidth : Int
  imgHeight : Int
  firstBarX : ℚ
  finalX : ℚ
deriving DecidableEq

/-- The native Code 39 generator (geometry only — the pixel fills
follow the walk; interpretation-line text never changes the canvas
size). -/
def generateCode39 (text : List Char) (moduleWidth : Int) (ratio : ℚ)
    (height : Int) : Code39Render :=
  let narrow : ℚ := if moduleWidth = 0 then 2 else moduleWidth
  let r : ℚ := if ratio = 0 then 2 else ratio
  let heightDots := if height = 0 then 50 else height
  let total := code39TotalModules text r
  let width := ratCeil (total * narrow)
  { imgWidth := if width = 0 then 1 else width
    imgHeight := if heightDots = 0 then 1 else heightDots
    firstBarX := 10 * narrow
    finalX := code39WalkAux narrow r (code39Encoded text) (10 * narrow) }

/-- Result of the delegated bwip-js engine call: decoded bitmap
dimensions and, when some row has ink, the top and bottom ink rows of
the vertical ink scan. -/
structure EngineResult where
  imgW : Int
  imgH : Int
  ink : Option (Int × Int)

/-- External dependencies of the prepare phase: the PNG codec (returns
the decoded dimensions, `none` when decoding fails) and the text
measurer of the font registry, plus the delegated barcode engine
(`none` models an engine failure). -/
structure RasterEnv where
  pngDecode : List Nat → Option (Int × Int)
  measure : Int → Option Char → List Char → ℚ
  engine : Element → Option EngineResult

/-- Is the code type one of the two matrix symbologies. -/
def isMatrixCode (ct : List Char) : Bool :=
  ct = "qrcode".data ∨ ct = "datamatrix".data

/-- The `renderWidth`/`renderHeight` attached by each drawer's
`prepare`; `none` models a `NaN` dimension (only shape elements whose
stored `NaN` height is copied verbatim produce one). -/
def prepareDims (env : RasterEnv) : Element → Option ℚ × Option ℚ
  | .text _ _ txt h w fn _ _ _ _ =>
      let fontSize := if h = 0 then 10 else h
      let scaleX : ℚ :=
        if fn.map Char.toUpper = some '0' then
          if 0 < w ∧ 0 < h then (w : ℚ) / (h : ℚ) else (13 : ℚ) / 20
        else 1
      (some (env.measure fontSize fn txt * scaleX), some (fontSize : ℚ))
  | .barcode x y ct txt h mw ratio opts o pi pa =>
      if ct = "code39".data then
        let r := generateCode39 txt mw ratio h
        (some (r.imgWidth : ℚ), some (r.imgHeight : ℚ))
      else
        match env.engine (.barcode x y ct txt h mw ratio opts o pi pa) with
        | none =>
            let estLen : ℚ := if txt = [] then 1 else txt.length
            (some (estLen * (if mw = 0 then 2 else (mw : ℚ)) * 10),
             some (if h = 0 then 50 else (h : ℚ)))
        | some r =>
            if ¬ isMatrixCode ct ∧ h ≠ 0 then
              let scale : ℚ := match r.ink with
                | some (top, bottom) => (h : ℚ) / ((bottom : ℚ) - (top : ℚ) + 1)
                | none => 1
              (some (max 1 (ratRound ((r.imgW : ℚ) * scale)) : Int),
               some (max 1 (ratRound ((r.imgH : ℚ) * scale)) : Int))
            else (some (r.imgW : ℚ), some (r.imgH : ℚ))
  | .box _ _ w h _ _ _ => (some (w : ℚ), h.map (fun v => (v : ℚ)))
  | .circle _ _ d _ _ _ => (some (d : ℚ), some (d : ℚ))
  | .diagonal _ _ w h _ _ _ => (some (w : ℚ), h.map (fun v => (v : ℚ)))
  | .image _ _ sx sy _ _ g =>
      match g with
      | some (.png bytes) =>
          match env.pngDecode bytes with
          | some (w, h) => (some ((w : ℚ) * sx), some ((h : ℚ) * sy))
          | none => (some 0, some 0)
      | _ => (some 0, some 0)

/-- The decoded bitmap of an image element after `ImageDrawer.prepare`
(`none` when decoding failed or never ran); `ImageDrawer.draw` returns
without painting exactly when this is `none`. -/
def imageDecoded (env : RasterEnv) : Element → Option (Int × Int)
  | .image _ _ _ _ _ _ (some (.png bytes)) => env.pngDecode bytes
  | _ => none

/-- Truthiness of a render dimension (`0`, `NaN` and `undefined` are
falsy). -/
def dimTruthy : Option ℚ → Bool
  | some v => v ≠ 0
  | none => false

/-- `el.width || 0` of the extent fallback (only text, box and
diagonal elements carry a `width` property). -/
def elFallbackW : Element → ℚ
  | .text _ _ _ _ w _ _ _ _ _ => w
  | .box _ _ w _ _ _ _ => w
  | .diagonal _ _ w _ _ _ _ => w
  | _ => 0

/-- `el.height || 0` of the extent fallback (text, barcode, box and
diagonal have a `height`; a stored `NaN` is falsy). -/
def elFallbackH : Element → ℚ
  | .text _ _ _ h _ _ _ _ _ _ => h
  | .barcode _ _ _ _ h _ _ _ _ _ _ => h
  | .box _ _ _ h _ _ _ => (h.getD 0 : Int)
  | .diagonal _ _ _ h _ _ _ => (h.getD 0 : Int)
  | _ => 0

/-- `el.orientation || "N"` (shapes have no orientation property). -/
def elOrientN : Element → Char
  | .text _ _ _ _ _ _ o _ _ _ => o
  | .barcode _ _ _ _ _ _ _ _ o _ _ => o
  | .image _ _ _ _ _ o _ => o
  | _ => 'N'

/-- The x coordinate of an element. -/
def elX : Element → Int
  | .text x _ _ _ _ _ _ _ _ _ => x
  | .barcode x _ _ _ _ _ _ _ _ _ _ => x
  | .box x _ _ _ _ _ _ => x
  | .circle x _ _ _ _ _ => x
  | .diagonal x _ _ _ _ _ _ => x
  | .image x _ _ _ _ _ _ => x

/-- The y coordinate of an element. -/
def elY : Element → Int
  | .text _ y _ _ _ _ _ _ _ _ => y
  | .barcode _ y _ _ _ _ _ _ _ _ _ => y
  | .box _ y _ _ _ _ _ => y
  | .circle _ y _ _ _ _ => y
  | .diagonal _ y _ _ _ _ _ => y
  | .image _ y _ _ _ _ _ => y

/-- The canvas size computed by `drawElements`: the union of rotated
element extents plus a margin of 4, with a 1×1 minimum. -/
def canvasSize (env : RasterEnv) (elements : List Element) : Int × Int :=
  let step := fun (m : ℚ × ℚ) (el : Element) =>
    let (rw, rh) := prepareDims env el
    let (w, h) :=
      if dimTruthy rw && dimTruthy rh then (rw.getD 0, rh.getD 0)
      else (elFallbackW el, elFallbackH el)
    let o := elOrientN el
    let (rotW, rotH) := if o = 'R' ∨ o = 'B' then (h, w) else (w, h)
    (max m.1 ((elX el : ℚ) + rotW), max m.2 ((elY el : ℚ) + rotH))
  let me := elements.foldl step (0, 0)
  let cw := ratCeil (me.1 + 4)
  let ch := ratCeil (me.2 + 4)
  (if 0 < cw then cw else 1, if 0 < ch then ch else 1)

/-- The `render` entry point of `index.ts`: analyze, throw when no
labels were produced, otherwise draw the first label (the drawing
pipeline is modelled up to the canvas it produces; the PNG encoder is
an external codec). -/
def render (env : RasterEnv) (zpl : String) : Except String (Int × Int) :=
  match analyze zpl with
  | [] => Except.error "No labels were detected in the supplied ZPL"
  | l :: _ => Except.ok (canvasSize env l.elements)

/-- Concatenating the tokens of the scanning loop restores the cleaned
input. -/
theorem splitZplAux_flatten (l : List Char) :
    ∀ buf, (splitZplAux l buf).flatten = buf ++ l := by
  induction l with
  | nil =>
      intro buf
      by_cases h : buf = [] <;> simp [splitZplAux, h]
  | cons c rest ih =>
      intro buf
      by_cases hc : c = '^' ∨ c = '~'
      · by_cases hb : buf = [] <;> simp [splitZplAux, hc, hb, ih]
      · simp [splitZplAux, hc, ih]

/-- When the buffer already starts with an introducer, every emitted
token starts with an introducer. -/
theorem splitZplAux_head (l : List Char) :
    ∀ buf, (buf.head? = some '^' ∨ buf.head? = some '~') →
      ∀ t ∈ splitZplAux l buf, t.head? = some '^' ∨ t.head? = some '~' := by
  induction l with
  | nil =>
      intro buf hb t ht
      by_cases h : buf = []
      · simp [h] at hb
      · simp [splitZplAux, h] at ht
        exact ht ▸ hb
  | cons c rest ih =>
      intro buf hb t ht
      have hbne : buf ≠ [] := by
        intro h
        simp [h] at hb
      by_cases hc : c = '^' ∨ c = '~'
      · rw [splitZplAux, if_pos hc, if_neg hbne] at ht
        rcases List.mem_cons.mp ht with h | h
        · exact h ▸ hb
        · refine ih [c] ?_ t h
          rcases hc with h' | h' <;> simp [h']
      · rw [splitZplAux, if_neg hc] at ht
        refine ih (buf ++ [c]) ?_ t ht
        rcases hb with h' | h' <;> simp [List.head?_append, h']

/-- Every token after the first starts with `^` or `~`. -/
theorem splitZplAux_tail (l : List Char) :
    ∀ buf, ∀ t ∈ (splitZplAux l buf).tail,
      t.head? = some '^' ∨ t.head? = some '~' := by
  induction l with
  | nil =>
      intro buf t ht
      by_cases h : buf = [] <;> simp [splitZplAux, h] at ht
  | cons c rest ih =>
      intro buf t ht
      by_cases hc : c = '^' ∨ c = '~'
      · by_cases hb : buf = []
        · rw [splitZplAux, if_pos hc, if_pos hb] at ht
          exact ih [c] t ht
        · rw [splitZplAux, if_pos hc, if_neg hb] at ht
          refine splitZplAux_head rest [c] ?_ t ht
          rcases hc with h' | h' <;> simp [h']
      · rw [splitZplAux, if_neg hc] at ht
        exact ih (buf ++ [c]) t ht

/-- C8: for every input string, concatenating the tokens of the
tokenizer in order equals the input with all vertical whitespace (LF,
VT, FF, CR) removed, and every token after the first begins with `^`
or `~` — the introducer is kept as the first character of its token. -/
theorem C8_tokenizer_round_trip (zpl : String) :
    (splitZplCommands zpl).flatten = stripVertical zpl.data ∧
    ∀ t ∈ (splitZplCommands zpl).tail,
      t.head? = some '^' ∨ t.head? = some '~' := by
  constructor
  · simpa using splitZplAux_flatten (stripVertical zpl.data) []
  · exact splitZplAux_tail (stripVertical zpl.data) []

/-- Witness for C8 at the concrete document `ab^XA~CD`. -/
theorem C8_tokenizer_round_trip_witness :
    (splitZplCommands "ab^XA~CD").flatten = stripVertical "ab^XA~CD".data ∧
    (("~CD".data).head? = some '^' ∨ ("~CD".data).head? = some '~') :=
  ⟨(C8_tokenizer_round_trip "ab^XA~CD").1,
   (C8_tokenizer_round_trip "ab^XA~CD").2 "~CD".data (by decide)⟩

/-- C7: `render` fails exactly when `analyze` yields no labels, and
whenever at least one label exists `render` completes with a canvas;
the Lean `analyze` is total by construction, modelling that the
analyzer never throws. -/
theorem C7_render_fails_iff_no_labels (env : RasterEnv) (zpl : String) :
    (render env zpl = Except.error "No labels were detected in the supplied ZPL"
      ↔ analyze zpl = []) ∧
    (analyze zpl ≠ [] → ∃ dims, render env zpl = Except.ok dims) := by
  cases h : analyze zpl with
  | nil => simp [render, h]
  | cons l rest => simp [render, h]

/-- Witness for C7: the empty document fails, a one-box document
renders. -/
theorem C7_render_fails_iff_no_labels_witness :
    render ⟨fun _ => none, fun _ _ _ => 0, fun _ => none⟩ "" =
      Except.error "No labels were detected in the supplied ZPL" ∧
    (render ⟨fun _ => none, fun _ _ _ => 0, fun _ => none⟩
        "^XA^FO0,0^GB10,10,1,B^FS^XZ").isOk = true := by
  refine ⟨?_, ?_⟩
  · exact (C7_render_fails_iff_no_labels
      ⟨fun _ => none, fun _ _ _ => 0, fun _ => none⟩ "").1.mpr (by decide)
  · obtain ⟨dims, hd⟩ := (C7_render_fails_iff_no_labels
      ⟨fun _ => none, fun _ _ _ => 0, fun _ => none⟩
      "^XA^FO0,0^GB10,10,1,B^FS^XZ").2 (by decide)
    simp [hd, Except.isOk, Except.toBool]

/-- C9: the Code 39 scenario document yields exactly one barcode
element with the claimed fields, and the native generator geometry
matches the claimed module accounting: total modules 84 (ten quiet
modules per side, nine modules per encoded character with `w` counted
as the ratio, one gap between characters), pixel width
`ceil(84 × 2) = 168`, and 20-dot quiet zones on both sides. -/
theorem C9_code39_scenario :
    analyze "^XA^BY2,2,50^FO0,0^B3N,N,50,N,N^FD123^FS^XZ" =
      [⟨[Element.barcode 0 0 "code39".data "123".data 50 2 2 {} 'N' false false]⟩] ∧
    generateCode39 "123".data 2 2 50 =
      { imgWidth := 168, imgHeight := 50, firstBarX := 20, finalX := 148 } ∧
    ratCeil (code39TotalModules "123".data 2 * 2) = 168 ∧
    code39TotalModules "123".data 2 = 84 ∧
    (generateCode39 "123".data 2 2 50).firstBarX = 10 * 2 ∧
    ((generateCode39 "123".data 2 2 50).imgWidth : ℚ) -
      (generateCode39 "123".data 2 2 50).finalX = 10 * 2 := by
  refine ⟨by with_unfolding_all rfl, by with_unfolding_all rfl,
    by with_unfolding_all rfl, by with_unfolding_all rfl,
    by with_unfolding_all rfl, by with_unfolding_all rfl⟩

/-- Counterexample for C1: the scenario document wraps into two text
elements, `Hello` and `world here`, not three — with width 10 and
height 20 both set, the wrapping scale is 10/20 = 1/2, so
`charWidth = 20 × 0.6 × 0.5 = 6` and `maxChars = floor(60/6) = 10`,
and `world here` (10 characters) fits on one line. -/
theorem C1_counterexample :
    ((analyze "^XA^FO0,0^FB60,0,0,C,0^A0N,20,10^FDHello world here^FS^XZ").map
        fun l => l.elements.map Element.textField) =
      [["Hello".data, "world here".data]] ∧
    [["Hello".data, "world here".data]] ≠
      [["Hello".data, "world".data, "here".data]] :=
  ⟨by with_unfolding_all rfl, by decide⟩

/-- C1 amended: the scenario document yields exactly one label whose
elements are exactly two Text elements `Hello` and `world here`, as
produced by the field-block wrapping rule with
`scaleX = width/height = 1/2`, `charWidth = 6`, `maxChars = 10`. -/
theorem C1_field_block_wrapping :
    analyze "^XA^FO0,0^FB60,0,0,C,0^A0N,20,10^FDHello world here^FS^XZ" =
      [⟨[Element.text 0 0 "Hello".data 20 10 (some '0') 'N' .topLeft (some 60) (some 'C'),
         Element.text 0 20 "world here".data 20 10 (some '0') 'N' .topLeft (some 60) (some 'C')]⟩] := by
  with_unfolding_all rfl

/-- Counterexample for C2: after `^FR`, the `^FD` emits a Text element
(which carries no reverse field at all), and the flag is still armed
afterwards — the later `^GB` captures `reverse = true`, so
`reverseNext` was not false immediately after the `^FD` emission. -/
theorem C2_counterexample :
    analyze "^XA^FR^FO0,0^FDHI^FS^GB10,10,1,B^XZ" =
      [⟨[Element.text 0 0 "HI".data 10 0 (some '0') 'N' .topLeft none none,
         Element.box 0 0 10 (some 10) (some 1) "B".data true]⟩] ∧
    (Element.text 0 0 "HI".data 10 0 (some '0') 'N' .topLeft none none).reverseField
      = none :=
  ⟨by with_unfolding_all rfl, by decide⟩

/-- Counterexample for C3: after `^FB60,2,0,L,0` and a terminating
`^XZ`, the field block is still armed — only the pending barcode and
the armed position are cleared by `pushLabel`. -/
theorem C3_counterexample :
    (runCommands ["^XA", "^FB60,2,0,L,0", "^XZ"]).printer.fieldBlock =
      some ⟨60, 2, 0, 'L', 0⟩ := by
  with_unfolding_all rfl

/-- Counterexample for C4: `^A0N,30,20` sets the font width to 20,
and the following `^CFB` (no height, no width) resets it to 0 through
the `width = 0` default parameter of `setFont`, while the height 30 is
preserved. -/
theorem C4_counterexample :
    (runCommands ["^XA", "^A0N,30,20"]).printer.fontWidth = 20 ∧
    (runCommands ["^XA", "^A0N,30,20", "^CFB"]).printer.fontWidth = 0 ∧
    (runCommands ["^XA", "^A0N,30,20", "^CFB"]).printer.fontHeight = 30 :=
  ⟨by with_unfolding_all rfl, by with_unfolding_all rfl, by with_unfolding_all rfl⟩

/-- Counterexample for C5: the token `^FDhi ` has payload `hi ` with a
trailing space, but the command loop trims every token before parsing,
so the emitted Text element carries `hi`. -/
theorem C5_counterexample :
    (splitZplCommands "^XA^FO0,0^FDhi ^FS^XZ").getD 2 [] = "^FDhi ".data ∧
    ((analyze "^XA^FO0,0^FDhi ^FS^XZ").map fun l => l.elements.map Element.textField)
      = [["hi".data]] ∧
    "hi".data ≠ ("^FDhi ".data).drop 3 :=
  ⟨by decide, by with_unfolding_all rfl, by decide⟩

/-- Counterexample for C6: the `~DY` stores an empty byte buffer, not
the 8 PNG-header bytes — the comma kept by `parts.slice(5).join(",")`
makes the hex decode truncate at position zero. -/
theorem C6_counterexample :
    (runCommands ["^XA", "~DYR:L.PNG,P,P,4,,,89504E470D0A1A0A"]).printer.getGraphic
        "R:L.PNG".data = some (Graphic.png []) ∧
    some (Graphic.png []) ≠
      some (Graphic.png [137, 80, 78, 71, 13, 10, 26, 10]) :=
  ⟨by with_unfolding_all rfl, by decide⟩

/-- C6 amended: the scenario document stores an empty PNG buffer under
`R:L.PNG` and emits exactly one Image element referencing it; for any
PNG codec that fails on an empty buffer the prepare of that element
decodes nothing (so its draw is a no-op) and the rendered canvas is
4×4 — the extents are zero and only the margin of 4 remains. -/
theorem C6_dy_image_scenario (env : RasterEnv) (hdec : env.pngDecode [] = none) :
    analyze "^XA~DYR:L.PNG,P,P,4,,,89504E470D0A1A0A^FO0,0^XGR:L.PNG,1,1^FS^XZ" =
      [⟨[Element.image 0 0 1 1 false 'N' (some (Graphic.png []))]⟩] ∧
    imageDecoded env (Element.image 0 0 1 1 false 'N' (some (Graphic.png []))) = none ∧
    canvasSize env [Element.image 0 0 1 1 false 'N' (some (Graphic.png []))] = (4, 4) := by
  refine ⟨by with_unfolding_all rfl, ?_, ?_⟩
  · simp [imageDecoded, hdec]
  · have h1 : prepareDims env (Element.image 0 0 1 1 false 'N' (some (Graphic.png [])))
        = (some 0, some 0) := by
      simp [prepareDims, hdec]
    simp only [canvasSize, List.foldl, h1]
    with_unfolding_all rfl

/-- Witness for C6 with the decoder that always fails. -/
theorem C6_dy_image_scenario_witness :
    analyze "^XA~DYR:L.PNG,P,P,4,,,89504E470D0A1A0A^FO0,0^XGR:L.PNG,1,1^FS^XZ" =
      [⟨[Element.image 0 0 1 1 false 'N' (some (Graphic.png []))]⟩] ∧
    imageDecoded ⟨fun _ => none, fun _ _ _ => 0, fun _ => none⟩
      (Element.image 0 0 1 1 false 'N' (some (Graphic.png []))) = none ∧
    canvasSize ⟨fun _ => none, fun _ _ _ => 0, fun _ => none⟩
      [Element.image 0 0 1 1 false 'N' (some (Graphic.png []))] = (4, 4) :=
  C6_dy_image_scenario ⟨fun _ => none, fun _ _ _ => 0, fun _ => none⟩ rfl

/-- C3 amended: in every state, a `^XZ` command clears the pending
barcode and the armed position, but leaves the field block untouched
(the field block is only cleared by `^XA`, by `^FD` consumption, or by
image recall). -/
theorem C3_xz_clears_pending (s : AnalyzeState) (raw rest : List Char)
    (h : jsTrim raw = '^' :: 'X' :: 'Z' :: rest) :
    (execCommand s raw).printer.pendingBarcode = none ∧
    (execCommand s raw).printer.nextPosition = none ∧
    (execCommand s raw).printer.fieldBlock = s.printer.fieldBlock := by
  simp only [execCommand, h]
  exact ⟨rfl, rfl, rfl⟩

/-- Witness for C3 at the literal `^XZ` command. -/
theorem C3_xz_clears_pending_witness :
    (execCommand initState "^XZ".data).printer.pendingBarcode = none ∧
    (execCommand initState "^XZ".data).printer.nextPosition = none ∧
    (execCommand initState "^XZ".data).printer.fieldBlock =
      initState.printer.fieldBlock :=
  C3_xz_clears_pending initState "^XZ".data [] rfl

/-- C10: in every state, a `^XA` command resets the whole printer, in
particular the graphics store becomes empty; consequently a graphic
downloaded before a later `^XA` cannot be recalled after it — in the
two scenario documents the `^XG` (for `~DY`) and `^IM` (for `~DG`)
after the second `^XA` emit an Image element whose graphic is null. -/
theorem C10_xa_resets_graphics (s : AnalyzeState) (raw rest : List Char)
    (h : jsTrim raw = '^' :: 'X' :: 'A' :: rest) :
    (execCommand s raw).printer.graphics = [] ∧
    (execCommand s raw).printer = resetPrinter ∧
    analyze "^XA~DYR:A.PNG,P,P,1,,,FF^XZ^XA^FO0,0^XGR:A.PNG,1,1^FS^XZ" =
      [⟨[]⟩, ⟨[Element.image 0 0 1 1 false 'N' none]⟩] ∧
    analyze "^XA~DGR:B.GRF,8,1,ABCD^XZ^XA^FO0,0^IMR:B.GRF^FS^XZ" =
      [⟨[]⟩, ⟨[Element.image 0 0 1 1 false 'N' none]⟩] := by
  simp only [execCommand, h]
  exact ⟨rfl, rfl, by with_unfolding_all rfl, by with_unfolding_all rfl⟩

/-- Witness for C10 at the literal `^XA` command. -/
theorem C10_xa_resets_graphics_witness :
    (execCommand initState "^XA".data).printer.graphics = [] ∧
    (execCommand initState "^XA".data).printer = resetPrinter ∧
    analyze "^XA~DYR:A.PNG,P,P,1,,,FF^XZ^XA^FO0,0^XGR:A.PNG,1,1^FS^XZ" =
      [⟨[]⟩, ⟨[Element.image 0 0 1 1 false 'N' none]⟩] ∧
    analyze "^XA~DGR:B.GRF,8,1,ABCD^XZ^XA^FO0,0^IMR:B.GRF^FS^XZ" =
      [⟨[]⟩, ⟨[Element.image 0 0 1 1 false 'N' none]⟩] :=
  C10_xa_resets_graphics initState "^XA".data [] rfl

/-- C5 amended: the `^FD` payload that round-trips verbatim into the
`text` field of the emitted Text or Barcode element is every character
after `^FD` of the TRIMMED token — the command loop trims each token,
so trailing horizontal whitespace of the raw payload is dropped (and
in field-block mode the wrapper additionally re-splits the payload on
whitespace).  Outside field-block mode, leading whitespace after
`^FD` and every interior character are preserved exactly. -/
theorem C5_fd_payload_after_trim (s : AnalyzeState) (raw payload : List Char)
    (h : jsTrim raw = '^' :: 'F' :: 'D' :: payload)
    (hstate : s.printer.pendingBarcode ≠ none ∨ s.printer.fieldBlock = none) :
    ∃ el, (execCommand s raw).current = s.current ++ [el] ∧
      el.textField = payload := by
  simp only [execCommand, h]
  show ∃ el, (cmdFD s payload).current = s.current ++ [el] ∧ el.textField = payload
  rcases hpb : s.printer.pendingBarcode with _ | bc
  · rcases hstate with hne | hfb
    · exact absurd hpb hne
    · simp only [cmdFD, hpb, hfb]
      exact ⟨_, rfl, rfl⟩
  · simp only [cmdFD, hpb]
    exact ⟨_, rfl, rfl⟩

/-- Witness for C5 at `^FDhi` in the initial state. -/
theorem C5_fd_payload_after_trim_witness :
    ((execCommand initState "^FDhi".data).current).map Element.textField =
      ["hi".data] := by
  obtain ⟨el, hcur, htxt⟩ :=
    C5_fd_payload_after_trim initState "^FDhi".data "hi".data rfl (Or.inr rfl)
  rw [hcur]
  simp [htxt, initState]

/-- A comma-free string splits into itself. -/
theorem splitComma_no_comma (l : List Char) (h : ',' ∉ l) : splitComma l = [l] := by
  induction l with
  | nil => rfl
  | cons c rest ih =>
      have hc : c ≠ ',' := fun hc => h (hc ▸ List.mem_cons_self c rest)
      have hr : ',' ∉ rest := fun hr => h (List.mem_cons_of_mem c hr)
      simp [splitComma, hc, ih hr]

/-- C4 amended: `^CFa` (no height, no width) keeps the previous
`fontHeight` and installs designator `a`, but resets `fontWidth` to 0
(the `width = 0` default parameter of `setFont` fires whenever the
width field is absent); `^CFa,h` likewise resets `fontWidth` to 0. -/
theorem C4_cf_absent_fields (s : AnalyzeState) (raw : List Char) (a : Char)
    (ds : List Char) (hws : isJsWs a = false) (hcomma : a ≠ ',') (hds : ',' ∉ ds) :
    (jsTrim raw = '^' :: 'C' :: 'F' :: [a] →
        (execCommand s raw).printer.fontHeight = s.printer.fontHeight ∧
        (execCommand s raw).printer.fontWidth = 0 ∧
        (execCommand s raw).printer.fontName = some a) ∧
    (jsTrim raw = '^' :: 'C' :: 'F' :: a :: ',' :: ds →
        (execCommand s raw).printer.fontWidth = 0) := by
  constructor
  · intro h
    simp only [execCommand, h]
    show ((cmdCF s [a]).printer.fontHeight = s.printer.fontHeight) ∧
      ((cmdCF s [a]).printer.fontWidth = 0) ∧
      ((cmdCF s [a]).printer.fontName = some a)
    have hsc : splitComma [a] = [[a]] := by simp [splitComma, hcomma]
    have hta : jsTrim [a] = [a] := by simp [jsTrim, hws]
    simp only [cmdCF, hsc]
    refine ⟨rfl, rfl, ?_⟩
    simp [VirtualPrinter.setFont, hta]
  · intro h
    simp only [execCommand, h]
    show (cmdCF s (a :: ',' :: ds)).printer.fontWidth = 0
    have hsc : splitComma (a :: ',' :: ds) = [[a], ds] := by
      simp [splitComma, hcomma, splitComma_no_comma ds hds]
    simp only [cmdCF, hsc]
    rfl

/-- Witness for C4 at `^CFB` and `^CFB,30` in the initial state. -/
theorem C4_cf_absent_fields_witness :
    ((execCommand initState "^CFB".data).printer.fontHeight =
        initState.printer.fontHeight ∧
      (execCommand initState "^CFB".data).printer.fontWidth = 0 ∧
      (execCommand initState "^CFB".data).printer.fontName = some 'B') ∧
    (execCommand initState "^CFB,30".data).printer.fontWidth = 0 :=
  ⟨(C4_cf_absent_fields initState "^CFB".data 'B' "30".data (by decide)
      (by decide) (by decide)).1 (by decide),
   (C4_cf_absent_fields initState "^CFB,30".data 'B' "30".data (by decide)
      (by decide) (by decide)).2 (by decide)⟩

/-- C2 amended: `^FR` arms `reverseNext`, and the flag is captured (as
the `reverse` field) and reset to false by the next `^GB`, `^GC`,
`^GD`, `^IM` or `^XG` element; a `^FD` command leaves `reverseNext`
unchanged and its emitted Text and Barcode elements carry no reverse
field at all. -/
theorem C2_reverse_flag_consumers (s : AnalyzeState) (raw rest : List Char) :
    ((jsTrim raw = '^' :: 'G' :: 'B' :: rest ∨
      jsTrim raw = '^' :: 'G' :: 'C' :: rest ∨
      jsTrim raw = '^' :: 'G' :: 'D' :: rest ∨
      jsTrim raw = '^' :: 'I' :: 'M' :: rest ∨
      jsTrim raw = '^' :: 'X' :: 'G' :: rest) →
      ∃ el, (execCommand s raw).current = s.current ++ [el] ∧
        el.reverseField = some s.printer.reverseNext ∧
        (execCommand s raw).printer.reverseNext = false) ∧
    (jsTrim raw = '^' :: 'F' :: 'D' :: rest →
      (execCommand s raw).printer.reverseNext = s.printer.reverseNext ∧
      ∀ el ∈ (execCommand s raw).current,
        el ∈ s.current ∨ el.reverseField = none) := by
  constructor
  · rintro (h | h | h | h | h) <;> simp only [execCommand, h] <;>
      exact ⟨_, rfl, rfl, rfl⟩
  · intro h
    simp only [execCommand, h]
    show (cmdFD s rest).printer.reverseNext = s.printer.reverseNext ∧
      ∀ el ∈ (cmdFD s rest).current, el ∈ s.current ∨ el.reverseField = none
    rcases hpb : s.printer.pendingBarcode with _ | bc
    · rcases hfb : s.printer.fieldBlock with _ | blk
      · simp only [cmdFD, hpb, hfb]
        refine ⟨by trivial, ?_⟩
        intro el hel
        rcases List.mem_append.mp hel with h' | h'
        · exact Or.inl h'
        · rcases List.mem_singleton.mp h' with rfl
          exact Or.inr rfl
      · simp only [cmdFD, hpb, hfb]
        refine ⟨by trivial, ?_⟩
        intro el hel
        rcases List.mem_append.mp hel with h' | h'
        · exact Or.inl h'
        · rcases List.mem_map.mp h' with ⟨i, _, rfl⟩
          exact Or.inr rfl
    · simp only [cmdFD, hpb]
      refine ⟨by trivial, ?_⟩
      intro el hel
      rcases List.mem_append.mp hel with h' | h'
      · exact Or.inl h'
      · rcases List.mem_singleton.mp h' with rfl
        exact Or.inr rfl

/-- Witness for C2: `^FDHI` leaves the armed flag in place, and
`^GB10,10,1,B` clears it. -/
theorem C2_reverse_flag_consumers_witness :
    (execCommand (cmdFR initState) "^FDHI".data).printer.reverseNext =
      (cmdFR initState).printer.reverseNext ∧
    (execCommand (cmdFR initState) "^GB10,10,1,B".data).printer.reverseNext = false :=
  ⟨((C2_reverse_flag_consumers (cmdFR initState) "^FDHI".data "HI".data).2 rfl).1,
   by
     obtain ⟨el, -, -, hrev⟩ := (C2_reverse_flag_consumers (cmdFR initState)
       "^GB10,10,1,B".data "10,10,1,B".data).1 (Or.inl rfl)
     exact hrev⟩

end ZplImager
